import Mathlib

/-!
Verification development for the swim-team calendar repository
(`src/server/storage.ts`, `src/shared/schema.ts`, `src/server/routes.ts`).

Dates are modelled as day numbers (days since 1970-01-01, UTC).  The server
parses `"YYYY-MM-DD"` strings with `new Date(...)` into UTC midnights and all
comparisons / `setDate` arithmetic on such values coincide with arithmetic on
day numbers (the server runs with a UTC clock).  Civil-calendar conversions
follow the proleptic Gregorian calendar, matching ECMAScript `Date` semantics
for the in-range values the application manipulates (all after 1970).
-/

/-- Gregorian leap-year test. -/
def isLeapYear (y : Nat) : Bool :=
  (y % 4 == 0 && y % 100 != 0) || y % 400 == 0

/-- Day number (days since 1970-01-01) of the civil date `y-m-d`
(`m` in 1..12, `d` in 1..31), for years ≥ 1970.  Standard era-based
Gregorian conversion. -/
def daysFromCivil (y m d : Nat) : Nat :=
  let yAdj := if m ≤ 2 then y - 1 else y
  let era := yAdj / 400
  let yoe := yAdj % 400
  let mp := (m + 9) % 12
  let doy := (153 * mp + 2) / 5 + d - 1
  let doe := yoe * 365 + yoe / 4 - yoe / 100 + doy
  era * 146097 + doe - 719468

/-- Civil date `(y, m, d)` of a day number (days since 1970-01-01). -/
def civilFromDays (n : Nat) : Nat × Nat × Nat :=
  let z := n + 719468
  let era := z / 146097
  let doe := z % 146097
  let yoe := (doe - doe / 1460 + doe / 36524 - doe / 146096) / 365
  let y := yoe + era * 400
  let doy := doe - (365 * yoe + yoe / 4 - yoe / 100)
  let mp := (5 * doy + 2) / 153
  let d := doy - (153 * mp + 2) / 5 + 1
  let m := if mp < 10 then mp + 3 else mp - 9
  (if m ≤ 2 then y + 1 else y, m, d)

/-- ECMAScript `Date.prototype.getDay` on a UTC-midnight day number:
  0 = Sunday .. 6 = Saturday (1970-01-01 was a Thursday). -/
def jsGetDay (n : Nat) : Nat := (n + 4) % 7

/-- The Sunday that starts the week of day `n`
(`currentWeek.setDate(currentWeek.getDate() - currentWeek.getDay())`). -/
def sundayOfWeek (n : Nat) : Nat := n - jsGetDay n

/-- ECMAScript `d.setMonth(d.getMonth() + 1)` on a UTC-midnight day number:
the first day of the following calendar month plus (day-of-month − 1) days.
The day-of-month is kept when the target month is long enough; otherwise the
date overflows past the end of the target month (no clamping). -/
def monthStep (n : Nat) : Nat :=
  let c := civilFromDays n
  let y := c.1
  let m := c.2.1
  let d := c.2.2
  let y2 := if m = 12 then y + 1 else y
  let m2 := if m = 12 then 1 else m + 1
  daysFromCivil y2 m2 1 + d - 1

/-- ECMAScript `d.setFullYear(d.getFullYear() + 1)` on a UTC-midnight day
number: same month, first-of-month plus (day-of-month − 1) days in the next
year (Feb 29 overflows to Mar 1 in a non-leap target year). -/
def yearStep (n : Nat) : Nat :=
  let c := civilFromDays n
  daysFromCivil (c.1 + 1) c.2.1 1 + c.2.2 - 1

/-!  Training sessions (`shared/schema.ts` `trainingSessions` table).
`weekdays` is stored as a string array and converted with `parseInt` at its
only use site (`generateWeeklyByWeekdays`); it is modelled directly as the
list of parsed numbers.  Nullable columns / optional insert fields are
`Option`s (both SQL `NULL` and JS `undefined` map to `none`). -/

structure InsertTrainingSession where
  title : Option String
  type : Option String
  date : Nat
  startTime : String
  endTime : Option String
  strokes : Option (List String)
  distance : Option Int
  intensity : Option String
  lanes : Option String
  menuDetails : Option String
  coachNotes : Option String
  isRecurring : Bool
  recurringPattern : Option String
  recurringEndDate : Option Nat
  weekdays : Option (List Nat)
  maxOccurrences : Option Nat
deriving Repr, DecidableEq

/-- A stored `TrainingSession` row: the insert payload plus the id assigned by
`MemStorage` (`{ ...insertSession, id }`). -/
structure TrainingSession extends InsertTrainingSession where
  id : Nat
deriving Repr, DecidableEq

/-- JS truthiness of the `recurringPattern` field: `null`/`undefined` and the
empty string are falsy. -/
def patternTruthy : Option String → Bool
  | some p => p ≠ ""
  | none => false

/-- JS `x || null` on a nullable string field: `""` (falsy) becomes `null`. -/
def jsOrNullStr : Option String → Option String
  | some s => if s = "" then none else some s
  | none => none

/-- JS `x || null` on a nullable integer field: `0` (falsy) becomes `null`. -/
def jsOrNullInt : Option Int → Option Int
  | some n => if n = 0 then none else some n
  | none => none

/-- JS `baseSession.maxOccurrences || 50`: a missing (or `0`, falsy)
`maxOccurrences` becomes the default cap 50. -/
def effectiveMax : Option Nat → Nat
  | some k => if k = 0 then 50 else k
  | none => 50

/-- The `endDate && currentDate > endDate` guard of both expander loops. -/
def pastEnd : Option Nat → Nat → Bool
  | some e, d => e < d
  | none, _ => false

/-- The `baseSession.weekdays && baseSession.weekdays.length > 0` guard that
routes a `weekly` template to the per-weekday walk. -/
def weekdaysNonempty : Option (List Nat) → Bool
  | some ws => ws ≠ []
  | none => false

/-- The occurrence record built in the main loop of
`generateRecurringSessions` (storage.ts lines 233-240): a spread copy of the
template with `id` and `date` replaced, `isRecurring` set to `false`, and
`recurringPattern` / `recurringEndDate` set to `null`.  The spread carries the
template's `weekdays` and `maxOccurrences` over unchanged. -/
def occurrenceOf (base : InsertTrainingSession) (id date : Nat) : TrainingSession :=
  { toInsertTrainingSession :=
      { base with
        date := date
        isRecurring := false
        recurringPattern := none
        recurringEndDate := none }
    id := id }

/-- The occurrence record built in `generateWeeklyByWeekdays` (storage.ts
lines 279-295).  On top of the spread copy it re-assigns the optional fields
as `field || null` (so falsy values — empty strings, a `0` distance — become
`null`; `strokes` is an array, and arrays are truthy, so `strokes || null`
only turns `undefined` into `null`, which is the identity under the `Option`
model).  `weekdays` and `maxOccurrences` are again carried over unchanged. -/
def occurrenceWd (base : InsertTrainingSession) (id date : Nat) : TrainingSession :=
  { toInsertTrainingSession :=
      { base with
        date := date
        type := jsOrNullStr base.type
        title := jsOrNullStr base.title
        endTime := jsOrNullStr base.endTime
        strokes := base.strokes
        distance := jsOrNullInt base.distance
        intensity := jsOrNullStr base.intensity
        lanes := jsOrNullStr base.lanes
        menuDetails := jsOrNullStr base.menuDetails
        coachNotes := jsOrNullStr base.coachNotes
        isRecurring := false
        recurringPattern := none
        recurringEndDate := none }
    id := id }

/-- Outcome of the `for (const weekday of weekdays)` pass of one week in
`generateWeeklyByWeekdays`: the sessions emitted this week, the updated
`count` and id counter, and whether the function returned (hit `endDate` or
the one-year safety bound). -/
structure WdPass where
  out : List TrainingSession
  count : Nat
  nextId : Nat
  stop : Bool
deriving Repr, DecidableEq

/-- One inner `for (const weekday of weekdays)` pass of
`generateWeeklyByWeekdays` (storage.ts lines 265-304), over the remaining
weekday list.  `currentWeek` is the Sunday day number of the week. -/
def weekdayPass (base : InsertTrainingSession) (startDate : Nat)
    (endDate : Option Nat) (maxOcc yearBound currentWeek : Nat) :
    List Nat → Nat → Nat → WdPass
  | [], count, nextId => ⟨[], count, nextId, false⟩
  | wd :: rest, count, nextId =>
    if maxOcc ≤ count then ⟨[], count, nextId, false⟩
    else
      let sessionDate := currentWeek + wd
      if sessionDate ≤ startDate then
        weekdayPass base startDate endDate maxOcc yearBound currentWeek rest count nextId
      else if pastEnd endDate sessionDate then
        ⟨[], count, nextId, true⟩
      else
        let s := occurrenceWd base nextId sessionDate
        if sessionDate > yearBound then ⟨[s], count + 1, nextId + 1, true⟩
        else
          let r := weekdayPass base startDate endDate maxOcc yearBound currentWeek rest
            (count + 1) (nextId + 1)
          ⟨s :: r.out, r.count, r.nextId, r.stop⟩

/-- The outer `while (count < maxOccurrences)` loop of
`generateWeeklyByWeekdays`, walking week by week.  `wfuel` bounds the number
of week iterations; every claim proved below holds for every value of
`wfuel`, so the fuel only truncates the walk, never changes what is emitted
up to that point. -/
def weeklyLoop (base : InsertTrainingSession) (startDate : Nat)
    (endDate : Option Nat) (maxOcc yearBound : Nat) (weekdays : List Nat) :
    Nat → Nat → Nat → Nat → List TrainingSession
  | 0, _, _, _ => []
  | wfuel + 1, currentWeek, count, nextId =>
    if count < maxOcc then
      let r := weekdayPass base startDate endDate maxOcc yearBound currentWeek
        weekdays count nextId
      if r.stop then r.out
      else r.out ++ weeklyLoop base startDate endDate maxOcc yearBound weekdays
        wfuel (currentWeek + 7) r.count r.nextId
    else []

/-- `generateWeeklyByWeekdays` (storage.ts lines 254-309): walk week by week
from the Sunday of the template date's week, emitting one occurrence per
requested weekday per week, skipping candidates on or before the template
date.  Returns the list of sessions inserted into the store. -/
def generateWeeklyByWeekdays (base : InsertTrainingSession) (startDate : Nat)
    (endDate : Option Nat) (maxOcc yearBound wfuel nextId : Nat) :
    List TrainingSession :=
  match base.weekdays with
  | none => []
  | some ws =>
    if ws = [] then []
    else weeklyLoop base startDate endDate maxOcc yearBound ws wfuel
      (sundayOfWeek startDate) 0 nextId

/-- The `while (count < maxOccurrences)` loop of `generateRecurringSessions`
(storage.ts lines 201-251).  The loop inserts exactly once per iteration
(unless it breaks or returns first), so the remaining budget
`maxOcc - count` — here the structural `fuel` — decreases by one per
iteration and the recursion is faithful to the `count` bookkeeping.
`yearBound` abstracts the `oneYearFromNow` wall-clock safety bound, which is
checked after each insertion. -/
def genLoop (base : InsertTrainingSession) (startDate : Nat)
    (endDate : Option Nat) (maxOcc yearBound wfuel : Nat) :
    Nat → Nat → Nat → List TrainingSession
  | 0, _, _ => []
  | fuel + 1, currentDate, nextId =>
    let cont := fun (next : Nat) =>
      if pastEnd endDate next then []
      else
        let s := occurrenceOf base nextId next
        if next > yearBound then [s]
        else s :: genLoop base startDate endDate maxOcc yearBound wfuel fuel next
          (nextId + 1)
    if base.recurringPattern = some "daily" then cont (currentDate + 1)
    else if base.recurringPattern = some "weekly" then
      if weekdaysNonempty base.weekdays then
        generateWeeklyByWeekdays base startDate endDate maxOcc yearBound wfuel nextId
      else cont (currentDate + 7)
    else if base.recurringPattern = some "biweekly" then cont (currentDate + 14)
    else if base.recurringPattern = some "monthly" then cont (monthStep currentDate)
    else []

/-- `generateRecurringSessions` (storage.ts lines 191-252): the recurrence
expander.  Returns the list of occurrence sessions inserted into the store,
with ids assigned from `startId`.  `yearBound` is the day number of the
`oneYearFromNow` safety bound and `wfuel` bounds the week walk of the
weekly-by-weekdays path. -/
def generateRecurringSessions (base : InsertTrainingSession)
    (yearBound wfuel startId : Nat) : List TrainingSession :=
  if patternTruthy base.recurringPattern then
    genLoop base base.date base.recurringEndDate
      (effectiveMax base.maxOccurrences) yearBound wfuel
      (effectiveMax base.maxOccurrences) base.date startId
  else []

/-- `createTrainingSession` (storage.ts lines 178-189): store the session
itself, then, when it is marked recurring with a truthy pattern, additionally
store the expanded occurrences.  Returns the updated session list (the
`Map`'s values in insertion order). -/
def createTrainingSession (ins : InsertTrainingSession)
    (sessions : List TrainingSession) (nextId yearBound wfuel : Nat) :
    List TrainingSession :=
  let s : TrainingSession := { toInsertTrainingSession := ins, id := nextId }
  let stored := sessions ++ [s]
  if ins.isRecurring && patternTruthy ins.recurringPattern then
    stored ++ generateRecurringSessions ins yearBound wfuel (nextId + 1)
  else stored

/-!  Leader duty schedule (`leader_schedule` table; storage.ts lines 347-535).
The in-memory store is the `Map` of schedules in insertion order plus the id
counter. -/

structure Swimmer where
  id : Nat
  name : String
  email : Option String
  lane : Option Nat
  level : String
deriving Repr, DecidableEq

structure InsertLeaderSchedule where
  swimmerId : Nat
  startDate : Nat
  endDate : Nat
  isActive : Bool
deriving Repr, DecidableEq

structure LeaderSchedule where
  id : Nat
  swimmerId : Nat
  startDate : Nat
  endDate : Nat
  isActive : Bool
deriving Repr, DecidableEq

/-- The leader records used by `setLeaderForDate` and `getLeaderForDate`:
`{ id, name, order }` tuples. -/
structure RosterMember where
  id : Nat
  name : String
  order : Nat
deriving Repr, DecidableEq

/-- The in-memory leader-schedule store: `Map` values in insertion order plus
the `currentLeaderScheduleId` counter. -/
structure LeaderState where
  schedules : List LeaderSchedule
  nextId : Nat
deriving Repr, DecidableEq

/-- `createLeaderSchedule` (storage.ts lines 403-412): assign the next id and
append to the store. -/
def createLeaderSchedule (ins : InsertLeaderSchedule) (st : LeaderState) :
    LeaderState :=
  { schedules := st.schedules ++
      [{ id := st.nextId, swimmerId := ins.swimmerId, startDate := ins.startDate
         endDate := ins.endDate, isActive := ins.isActive }]
    nextId := st.nextId + 1 }

/-- The `for (...) if (schedule.isActive) schedule.isActive = false` sweep
shared by `generateLeaderSchedule` and `setLeaderForDate`: every currently
active schedule is flipped to inactive, nothing is deleted. -/
def deactivateAll (st : LeaderState) : LeaderState :=
  { st with
    schedules := st.schedules.map fun s =>
      if s.isActive then { s with isActive := false } else s }

/-- The `while (currentDate < endOfYear)` rotation loop shared by
`generateLeaderSchedule` (lines 445-464) and `setLeaderForDate` (lines
515-534): each iteration stores a 3-day window
`[currentDate, currentDate + 2]` for member `ids[idx % ids.length]`, then
advances `idx` to `(idx + 1) % ids.length` and `currentDate` by 3 days.  Both
call sites read only the member's `id`, passed here as the `ids` list.  The
structural `fuel` is instantiated with `endOfYear - startDate` at the call
sites, which the loop can never exhaust (it consumes 3 days of the
`endOfYear - currentDate` gap per unit of fuel), so the fuel-0 branch is
unreachable and the recursion is faithful to the `while` condition. -/
def rotationLoop (ids : List Nat) (endOfYear : Nat) :
    Nat → Nat → Nat → LeaderState → LeaderState
  | 0, _, _, st => st
  | fuel + 1, idx, currentDate, st =>
    if currentDate < endOfYear then
      let sid := ids.getD (idx % ids.length) 0
      let st2 := createLeaderSchedule
        { swimmerId := sid, startDate := currentDate, endDate := currentDate + 2
          isActive := true } st
      rotationLoop ids endOfYear fuel ((idx + 1) % ids.length)
        (currentDate + 3) st2
    else st

/-- `generateLeaderSchedule` (storage.ts lines 427-465): no-op on an empty
roster; otherwise deactivate every active schedule, then fill one year from
`startDate` with 3-day windows rotating through the swimmers from index 0. -/
def generateLeaderSchedule (startDate : Nat) (swimmers : List Swimmer)
    (st : LeaderState) : LeaderState :=
  if swimmers.length = 0 then st
  else
    let endOfYear := yearStep startDate
    rotationLoop (swimmers.map (·.id)) endOfYear (endOfYear - startDate) 0
      startDate (deactivateAll st)

/-- The hardcoded leader list of `getLeaderForDate` (storage.ts lines
370-387), keyed by ids 1-4 and millisecond-timestamp ids for orders 5-16. -/
def resolveLeaders : List RosterMember :=
  [⟨1, "ののか", 1⟩, ⟨2, "有理", 2⟩, ⟨3, "龍之介", 3⟩, ⟨4, "彩音", 4⟩,
   ⟨1748413969681, "勘太", 5⟩, ⟨1748413977705, "悠喜", 6⟩,
   ⟨1748413989715, "佳翔", 7⟩, ⟨1748414023533, "春舞", 8⟩,
   ⟨1748414026842, "滉介", 9⟩, ⟨1748414030535, "元翔", 10⟩,
   ⟨1748414039656, "百華", 11⟩, ⟨1748414046732, "澪心", 12⟩,
   ⟨1748414051436, "礼志", 13⟩, ⟨1748414054499, "桔伊", 14⟩,
   ⟨1748414058644, "虹日", 15⟩, ⟨1748414073820, "弥広", 16⟩]

/-- The schedule scan of `getLeaderForDate`: skip inactive schedules; on the
first active schedule whose `[startDate, endDate]` contains the date, return
the result of the hardcoded-list lookup — even when that lookup misses
(`return leader ? { name: leader.name } : null`), in which case the scan does
not continue. -/
def leaderScan (date : Nat) : List LeaderSchedule → Option String
  | [] => none
  | s :: rest =>
    if !s.isActive then leaderScan date rest
    else if s.startDate ≤ date ∧ date ≤ s.endDate then
      match resolveLeaders.find? (fun l => l.id == s.swimmerId) with
      | some l => some l.name
      | none => none
    else leaderScan date rest

/-- `getLeaderForDate` (storage.ts lines 348-397). -/
def getLeaderForDate (date : Nat) (st : LeaderState) : Option String :=
  leaderScan date st.schedules

/-- The fallback leader list of `setLeaderForDate` (storage.ts lines
471-488), with ids 1-16. -/
def fallbackLeaders : List RosterMember :=
  [⟨1, "ののか", 1⟩, ⟨2, "有理", 2⟩, ⟨3, "龍之介", 3⟩, ⟨4, "彩音", 4⟩,
   ⟨5, "勘太", 5⟩, ⟨6, "悠喜", 6⟩, ⟨7, "佳翔", 7⟩, ⟨8, "春舞", 8⟩,
   ⟨9, "滉介", 9⟩, ⟨10, "元翔", 10⟩, ⟨11, "百華", 11⟩, ⟨12, "澪心", 12⟩,
   ⟨13, "礼志", 13⟩, ⟨14, "桔伊", 14⟩, ⟨15, "虹日", 15⟩, ⟨16, "弥広", 16⟩]

/-- `setLeaderForDate` (storage.ts lines 467-535): validate that `leaderId`
occurs in the provided (or fallback) leader list, throwing otherwise; then
deactivate every active schedule, sort the leaders by `order` ascending, and
run the rotation loop for one year from `date` starting at the chosen
leader's position in the sorted list. -/
def setLeaderForDate (date leaderId : Nat)
    (leaders : Option (List RosterMember)) (st : LeaderState) :
    Except String LeaderState :=
  let leadersList := leaders.getD fallbackLeaders
  match leadersList.find? (fun l => l.id == leaderId) with
  | none => Except.error "指定されたリーダーが見つかりません"
  | some _ =>
    let st2 := deactivateAll st
    let sorted := leadersList.mergeSort (fun a b => a.order ≤ b.order)
    let startIndex := sorted.findIdx (fun l => l.id == leaderId)
    let endOfYear := yearStep date
    Except.ok (rotationLoop (sorted.map (·.id)) endOfYear (endOfYear - date)
      startIndex date st2)

/-- The `POST /api/leaders/generate` handler (routes.ts lines 305-347), after
date parsing: with an empty swimmer list it answers 400 without touching the
store; otherwise it runs `generateLeaderSchedule` and answers 201. -/
def postLeadersGenerate (startDate : Nat) (swimmers : List Swimmer)
    (st : LeaderState) : Except String String × LeaderState :=
  if swimmers.length = 0 then
    (Except.error "No swimmers found. Cannot generate leader schedule.", st)
  else
    (Except.ok "リーダースケジュールを生成しました",
      generateLeaderSchedule startDate swimmers st)

/-!  Proof-support definitions and concrete fixtures. -/

/-- `StepChain f prev ds` states that `ds` is a run of consecutive `f`-steps
starting from `prev`: each element is `f` of its predecessor. -/
def StepChain (f : Nat → Nat) : Nat → List Nat → Prop
  | _, [] => True
  | prev, d :: rest => d = f prev ∧ StepChain f d rest

/-- Number of iterations the rotation loop performs from day `c` with the
given fuel: one per 3-day step while `c < E`. -/
def rotSteps (E : Nat) : Nat → Nat → Nat
  | 0, _ => 0
  | fuel + 1, c => if c < E then rotSteps E fuel (c + 3) + 1 else 0

/-- The window record the rotation loop appends at iteration `j`, for a loop
entered with id counter `n0`, member index `idx` and start day `c`. -/
def rotWindow (ids : List Nat) (n0 idx c j : Nat) : LeaderSchedule :=
  { id := n0 + j
    swimmerId := ids.getD ((idx + j) % ids.length) 0
    startDate := c + 3 * j
    endDate := c + 3 * j + 2
    isActive := true }

/-- A concrete template session, mirroring the repository's seeded sample
session, dated 2025-06-02 (a Monday). -/
def sampleTemplate : InsertTrainingSession :=
  { title := some "有酸素トレーニング"
    type := some "aerobic"
    date := daysFromCivil 2025 6 2
    startTime := "06:00"
    endTime := some "07:30"
    strokes := some ["freestyle"]
    distance := some 3000
    intensity := some "easy"
    lanes := some "1-4"
    menuDetails := some "ウォームアップ: 400m 自由形 Easy"
    coachNotes := some "フォームに重点を置く"
    isRecurring := true
    recurringPattern := some "daily"
    recurringEndDate := none
    weekdays := none
    maxOccurrences := some 3 }

/-- Counterexample template for C1: a daily template carrying a non-empty
`weekdays` array and an explicit `maxOccurrences`. -/
def cexShapeTemplate : InsertTrainingSession :=
  { sampleTemplate with
    recurringPattern := some "daily"
    weekdays := some [1]
    maxOccurrences := some 2 }

/-- Counterexample template for C4: a monthly template dated 2025-01-31. -/
def cexMonthlyTemplate : InsertTrainingSession :=
  { sampleTemplate with
    date := daysFromCivil 2025 1 31
    recurringPattern := some "monthly"
    maxOccurrences := some 1 }

/-- Counterexample template for C8: `maxOccurrences = 0` is falsy in JS and
is replaced by the default cap of 50. -/
def cexZeroMaxTemplate : InsertTrainingSession :=
  { sampleTemplate with
    recurringPattern := some "daily"
    maxOccurrences := some 0 }

/-- Witness template for C10: a weekly template with requested weekdays
Monday and Wednesday. -/
def weeklyWdTemplate : InsertTrainingSession :=
  { sampleTemplate with
    recurringPattern := some "weekly"
    weekdays := some [1, 3]
    maxOccurrences := some 2 }

/-- A concrete roster of one swimmer, mirroring the repository's seed data. -/
def sampleSwimmers : List Swimmer :=
  [{ id := 1, name := "田中太郎", email := some "tanaka@example.com"
     lane := some 1, level := "intermediate" }]

/-- An empty leader-schedule store. -/
def emptyLeaderState : LeaderState := { schedules := [], nextId := 1 }

/-- A store holding one active assignment that starts long before day 20241
(2025-06-02): its window is `[2024-10-04, 2024-10-06]`. -/
def cexOldActiveState : LeaderState :=
  { schedules := [{ id := 1, swimmerId := 1, startDate := 20000
                    endDate := 20002, isActive := true }]
    nextId := 2 }

/-- A store holding one active assignment for swimmer id 5 covering
`[20241, 20243]`; id 5 is what `setLeaderForDate`'s fallback list stores for
勘太 but is absent from `getLeaderForDate`'s hardcoded lookup list. -/
def cexUnresolvableState : LeaderState :=
  { schedules := [{ id := 1, swimmerId := 5, startDate := 20241
                    endDate := 20243, isActive := true }]
    nextId := 2 }

/-!  Occurrence-shape lemmas (claim C1). -/

/-- Every session emitted by a weekday pass is the weekday-path occurrence
record built from the template at its own id and date. -/
theorem weekdayPass_out_shape (base : InsertTrainingSession) (startDate : Nat)
    (endDate : Option Nat) (maxOcc yearBound currentWeek : Nat) :
    ∀ (ws : List Nat) (count nextId : Nat) (s : TrainingSession),
      s ∈ (weekdayPass base startDate endDate maxOcc yearBound currentWeek
        ws count nextId).out →
      s = occurrenceWd base s.id s.date := by
  intro ws
  induction ws with
  | nil =>
    intro count nextId s hs
    simp [weekdayPass] at hs
  | cons wd rest ih =>
    intro count nextId s hs
    simp only [weekdayPass] at hs
    split at hs
    · simp at hs
    · split at hs
      · exact ih _ _ _ hs
      · split at hs
        · simp at hs
        · split at hs
          · simp at hs
            subst hs
            rfl
          · rcases List.mem_cons.mp hs with h | h
            · subst h
              rfl
            · exact ih _ _ _ h

/-- Every session emitted by the week-by-week loop is the weekday-path
occurrence record built from the template at its own id and date. -/
theorem weeklyLoop_out_shape (base : InsertTrainingSession) (startDate : Nat)
    (endDate : Option Nat) (maxOcc yearBound : Nat) (weekdays : List Nat) :
    ∀ (wfuel currentWeek count nextId : Nat) (s : TrainingSession),
      s ∈ weeklyLoop base startDate endDate maxOcc yearBound weekdays wfuel
        currentWeek count nextId →
      s = occurrenceWd base s.id s.date := by
  intro wfuel
  induction wfuel with
  | zero =>
    intro currentWeek count nextId s hs
    simp [weeklyLoop] at hs
  | succ wfuel ih =>
    intro currentWeek count nextId s hs
    simp only [weeklyLoop] at hs
    split at hs
    · split at hs
      · exact weekdayPass_out_shape base startDate endDate maxOcc yearBound
          currentWeek weekdays count nextId s hs
      · rcases List.mem_append.mp hs with h | h
        · exact weekdayPass_out_shape base startDate endDate maxOcc yearBound
            currentWeek weekdays count nextId s h
        · exact ih _ _ _ s h
    · simp at hs

/-- Every session emitted by `generateWeeklyByWeekdays` is the weekday-path
occurrence record built from the template at its own id and date. -/
theorem gwbw_out_shape (base : InsertTrainingSession) (startDate : Nat)
    (endDate : Option Nat) (maxOcc yearBound wfuel nextId : Nat)
    (s : TrainingSession)
    (hs : s ∈ generateWeeklyByWeekdays base startDate endDate maxOcc yearBound
      wfuel nextId) :
    s = occurrenceWd base s.id s.date := by
  unfold generateWeeklyByWeekdays at hs
  split at hs
  · simp at hs
  · split at hs
    · simp at hs
    · exact weeklyLoop_out_shape base startDate endDate maxOcc yearBound _
        wfuel _ 0 nextId s hs

/-- Every session emitted by the main expander loop is one of the two
occurrence records built from the template at its own id and date. -/
theorem genLoop_out_shape (base : InsertTrainingSession) (startDate : Nat)
    (endDate : Option Nat) (maxOcc yearBound wfuel : Nat) :
    ∀ (fuel currentDate nextId : Nat) (s : TrainingSession),
      s ∈ genLoop base startDate endDate maxOcc yearBound wfuel fuel
        currentDate nextId →
      s = occurrenceOf base s.id s.date ∨ s = occurrenceWd base s.id s.date := by
  intro fuel
  induction fuel with
  | zero =>
    intro currentDate nextId s hs
    simp [genLoop] at hs
  | succ fuel ih =>
    intro currentDate nextId s hs
    simp only [genLoop] at hs
    split at hs
    · split at hs
      · simp at hs
      · split at hs
        · simp at hs
          subst hs
          exact Or.inl rfl
        · rcases List.mem_cons.mp hs with h | h
          · subst h
            exact Or.inl rfl
          · exact ih _ _ s h
    · split at hs
      · split at hs
        · exact Or.inr (gwbw_out_shape base startDate endDate maxOcc yearBound
            wfuel nextId s hs)
        · split at hs
          · simp at hs
          · split at hs
            · simp at hs
              subst hs
              exact Or.inl rfl
            · rcases List.mem_cons.mp hs with h | h
              · subst h
                exact Or.inl rfl
              · exact ih _ _ s h
      · split at hs
        · split at hs
          · simp at hs
          · split at hs
            · simp at hs
              subst hs
              exact Or.inl rfl
            · rcases List.mem_cons.mp hs with h | h
              · subst h
                exact Or.inl rfl
              · exact ih _ _ s h
        · split at hs
          · split at hs
            · simp at hs
            · split at hs
              · simp at hs
                subst hs
                exact Or.inl rfl
              · rcases List.mem_cons.mp hs with h | h
                · subst h
                  exact Or.inl rfl
                · exact ih _ _ s h
          · simp at hs

/-- Field values of the main-path occurrence record. -/
theorem occurrenceOf_fields (base : InsertTrainingSession) (i d : Nat) :
    (occurrenceOf base i d).isRecurring = false ∧
    (occurrenceOf base i d).recurringPattern = none ∧
    (occurrenceOf base i d).recurringEndDate = none ∧
    (occurrenceOf base i d).weekdays = base.weekdays ∧
    (occurrenceOf base i d).maxOccurrences = base.maxOccurrences := by
  simp [occurrenceOf]

/-- Field values of the weekday-path occurrence record. -/
theorem occurrenceWd_fields (base : InsertTrainingSession) (i d : Nat) :
    (occurrenceWd base i d).isRecurring = false ∧
    (occurrenceWd base i d).recurringPattern = none ∧
    (occurrenceWd base i d).recurringEndDate = none ∧
    (occurrenceWd base i d).weekdays = base.weekdays ∧
    (occurrenceWd base i d).maxOccurrences = base.maxOccurrences := by
  simp [occurrenceWd]

/-- C1, amended: every occurrence emitted by the expander is a copy of the
template (exact in the main loop; with JS-falsy optional fields normalized to
null in the weekly-by-weekdays path) with its date replaced, `isRecurring`
set to false and `recurringPattern` / `recurringEndDate` cleared to null,
while the template's `weekdays` and `maxOccurrences` are carried over
unchanged rather than cleared.  No emitted occurrence can re-trigger
expansion, since `isRecurring` is false and the pattern is null. -/
theorem expander_occurrence_shape (base : InsertTrainingSession)
    (yearBound wfuel startId : Nat) :
    ∀ s ∈ generateRecurringSessions base yearBound wfuel startId,
      s.isRecurring = false ∧ s.recurringPattern = none ∧
      s.recurringEndDate = none ∧ s.weekdays = base.weekdays ∧
      s.maxOccurrences = base.maxOccurrences ∧
      (s = occurrenceOf base s.id s.date ∨ s = occurrenceWd base s.id s.date) := by
  intro s hs
  unfold generateRecurringSessions at hs
  split at hs
  · rcases genLoop_out_shape base base.date base.recurringEndDate
        (effectiveMax base.maxOccurrences) yearBound wfuel
        (effectiveMax base.maxOccurrences) base.date startId s hs with h | h
    · obtain ⟨h1, h2, h3, h4, h5⟩ := occurrenceOf_fields base s.id s.date
      exact ⟨by rw [h]; exact h1, by rw [h]; exact h2, by rw [h]; exact h3,
        by rw [h]; exact h4, by rw [h]; exact h5, Or.inl h⟩
    · obtain ⟨h1, h2, h3, h4, h5⟩ := occurrenceWd_fields base s.id s.date
      exact ⟨by rw [h]; exact h1, by rw [h]; exact h2, by rw [h]; exact h3,
        by rw [h]; exact h4, by rw [h]; exact h5, Or.inr h⟩
  · simp at hs

/-- Witness for C1's theorem at the seeded daily template: the first emitted
occurrence (2025-06-03, id 10) has the amended shape. -/
theorem expander_occurrence_shape_witness :
    (occurrenceOf sampleTemplate 10 (daysFromCivil 2025 6 3)).isRecurring = false ∧
    (occurrenceOf sampleTemplate 10 (daysFromCivil 2025 6 3)).recurringPattern = none ∧
    (occurrenceOf sampleTemplate 10 (daysFromCivil 2025 6 3)).recurringEndDate = none ∧
    (occurrenceOf sampleTemplate 10 (daysFromCivil 2025 6 3)).weekdays = sampleTemplate.weekdays ∧
    (occurrenceOf sampleTemplate 10 (daysFromCivil 2025 6 3)).maxOccurrences = sampleTemplate.maxOccurrences ∧
    (occurrenceOf sampleTemplate 10 (daysFromCivil 2025 6 3) =
        occurrenceOf sampleTemplate 10 (daysFromCivil 2025 6 3) ∨
      occurrenceOf sampleTemplate 10 (daysFromCivil 2025 6 3) =
        occurrenceWd sampleTemplate 10 (daysFromCivil 2025 6 3)) :=
  expander_occurrence_shape sampleTemplate 99999 60 10 _ (by decide)

/-- Counterexample for C1 as stated: a daily template carrying
`weekdays = ["1"]` and `maxOccurrences = 2` yields occurrences on which
neither `weekdays` nor `maxOccurrences` is cleared to null/empty. -/
theorem expander_occurrence_shape_counterexample :
    ¬ (∀ s ∈ generateRecurringSessions cexShapeTemplate 99999 60 10,
        (s.weekdays = none ∨ s.weekdays = some []) ∧ s.maxOccurrences = none) := by
  decide

/-!  Dispatch lemmas for the main expander loop (claims C4, C8, C9, C10). -/

/-- Emitted dates of the two occurrence records. -/
theorem occurrenceOf_date (base : InsertTrainingSession) (i d : Nat) :
    (occurrenceOf base i d).date = d := rfl

theorem occurrenceWd_date (base : InsertTrainingSession) (i d : Nat) :
    (occurrenceWd base i d).date = d := rfl

/-- The JS `|| 50` default is always at least 1. -/
theorem effectiveMax_pos (m : Option Nat) : 1 ≤ effectiveMax m := by
  cases m with
  | none => simp [effectiveMax]
  | some k =>
    simp only [effectiveMax]
    split
    · omega
    · omega

/-- An unrecognized pattern hits the `default: return` arm of the switch at
the first iteration: no occurrence is emitted, for any fuel. -/
theorem genLoop_unrecognized (base : InsertTrainingSession) (startDate : Nat)
    (endDate : Option Nat) (maxOcc yearBound wfuel : Nat) (p : String)
    (hp : base.recurringPattern = some p)
    (h1 : p ≠ "daily") (h2 : p ≠ "weekly") (h3 : p ≠ "biweekly")
    (h4 : p ≠ "monthly") :
    ∀ fuel currentDate nextId,
      genLoop base startDate endDate maxOcc yearBound wfuel fuel currentDate
        nextId = [] := by
  intro fuel currentDate nextId
  cases fuel with
  | zero => simp [genLoop]
  | succ fuel => simp [genLoop, hp, h1, h2, h3, h4]

/-- A `weekly` pattern with a non-empty `weekdays` array delegates to
`generateWeeklyByWeekdays` on the first iteration. -/
theorem genLoop_weekly_delegate (base : InsertTrainingSession) (startDate : Nat)
    (endDate : Option Nat) (maxOcc yearBound wfuel : Nat)
    (hp : base.recurringPattern = some "weekly")
    (hwd : weekdaysNonempty base.weekdays = true) (fuel currentDate nextId : Nat) :
    genLoop base startDate endDate maxOcc yearBound wfuel (fuel + 1) currentDate
      nextId =
      generateWeeklyByWeekdays base startDate endDate maxOcc yearBound wfuel
        nextId := by
  simp [genLoop, hp, hwd]

/-- C9: an unrecognized recurrence pattern makes the expander produce zero
occurrences (it is a total function — there is no exception to raise), and
`createTrainingSession` still stores exactly the single template session. -/
theorem unrecognized_pattern_degrades (base : InsertTrainingSession)
    (p : String) (hp : base.recurringPattern = some p)
    (hnp : p ∉ ["daily", "weekly", "biweekly", "monthly"])
    (yearBound wfuel startId : Nat) (sessions : List TrainingSession)
    (nid : Nat) :
    generateRecurringSessions base yearBound wfuel startId = [] ∧
    createTrainingSession base sessions nid yearBound wfuel =
      sessions ++ [{ toInsertTrainingSession := base, id := nid }] := by
  have h1 : p ≠ "daily" := fun h => hnp (by simp [h])
  have h2 : p ≠ "weekly" := fun h => hnp (by simp [h])
  have h3 : p ≠ "biweekly" := fun h => hnp (by simp [h])
  have h4 : p ≠ "monthly" := fun h => hnp (by simp [h])
  have hgen : ∀ sid : Nat,
      generateRecurringSessions base yearBound wfuel sid = [] := by
    intro sid
    unfold generateRecurringSessions
    split
    · exact genLoop_unrecognized base base.date base.recurringEndDate
        (effectiveMax base.maxOccurrences) yearBound wfuel p hp h1 h2 h3 h4 _ _ _
    · rfl
  refine ⟨hgen startId, ?_⟩
  unfold createTrainingSession
  split
  · simp [hgen]
  · rfl

/-- Witness for C9 at a template whose pattern is the spec's own
`weekly_by_weekdays` spelling, which the switch does not recognize. -/
theorem unrecognized_pattern_degrades_witness :
    generateRecurringSessions
      { sampleTemplate with recurringPattern := some "weekly_by_weekdays" }
      99999 60 2 = [] ∧
    createTrainingSession
      { sampleTemplate with recurringPattern := some "weekly_by_weekdays" }
      [] 1 99999 60 =
      [] ++ [(⟨{ sampleTemplate with recurringPattern := some "weekly_by_weekdays" }, 1⟩ :
        TrainingSession)] :=
  unrecognized_pattern_degrades
    { sampleTemplate with recurringPattern := some "weekly_by_weekdays" }
    "weekly_by_weekdays" rfl (by decide) 99999 60 2 [] 1

/-- Unfolding of one `monthly` iteration of the main loop. -/
theorem genLoop_monthly_step (base : InsertTrainingSession) (startDate : Nat)
    (endDate : Option Nat) (maxOcc yearBound wfuel : Nat)
    (hp : base.recurringPattern = some "monthly") (fuel currentDate nextId : Nat) :
    genLoop base startDate endDate maxOcc yearBound wfuel (fuel + 1) currentDate
      nextId =
      (if pastEnd endDate (monthStep currentDate) then []
       else if monthStep currentDate > yearBound then
         [occurrenceOf base nextId (monthStep currentDate)]
       else occurrenceOf base nextId (monthStep currentDate) ::
         genLoop base startDate endDate maxOcc yearBound wfuel fuel
           (monthStep currentDate) (nextId + 1)) := by
  simp [genLoop, hp]

/-- Unfolding of one `weekly` iteration (empty `weekdays`) of the main loop. -/
theorem genLoop_weekly_plain_step (base : InsertTrainingSession) (startDate : Nat)
    (endDate : Option Nat) (maxOcc yearBound wfuel : Nat)
    (hp : base.recurringPattern = some "weekly")
    (hwd : weekdaysNonempty base.weekdays = false) (fuel currentDate nextId : Nat) :
    genLoop base startDate endDate maxOcc yearBound wfuel (fuel + 1) currentDate
      nextId =
      (if pastEnd endDate (currentDate + 7) then []
       else if currentDate + 7 > yearBound then
         [occurrenceOf base nextId (currentDate + 7)]
       else occurrenceOf base nextId (currentDate + 7) ::
         genLoop base startDate endDate maxOcc yearBound wfuel fuel
           (currentDate + 7) (nextId + 1)) := by
  simp [genLoop, hp, hwd]

/-- Dates emitted by a `monthly` loop are successive `monthStep` iterates of
the loop's current date. -/
theorem genLoop_monthly_chain (base : InsertTrainingSession) (startDate : Nat)
    (endDate : Option Nat) (maxOcc yearBound wfuel : Nat)
    (hp : base.recurringPattern = some "monthly") :
    ∀ (fuel currentDate nextId : Nat),
      StepChain monthStep currentDate
        ((genLoop base startDate endDate maxOcc yearBound wfuel fuel
          currentDate nextId).map (·.date)) := by
  intro fuel
  induction fuel with
  | zero => intro c n; simp [genLoop, StepChain]
  | succ fuel ih =>
    intro c n
    rw [genLoop_monthly_step base startDate endDate maxOcc yearBound wfuel hp]
    split
    · simp [StepChain]
    · split
      · simp [StepChain, occurrenceOf_date]
      · simp only [List.map_cons, occurrenceOf_date]
        exact ⟨rfl, ih (monthStep c) (n + 1)⟩

/-- Dates emitted by a `weekly` loop with no requested weekdays are
successive `+7` steps of the loop's current date. -/
theorem genLoop_weekly_chain (base : InsertTrainingSession) (startDate : Nat)
    (endDate : Option Nat) (maxOcc yearBound wfuel : Nat)
    (hp : base.recurringPattern = some "weekly")
    (hwd : weekdaysNonempty base.weekdays = false) :
    ∀ (fuel currentDate nextId : Nat),
      StepChain (· + 7) currentDate
        ((genLoop base startDate endDate maxOcc yearBound wfuel fuel
          currentDate nextId).map (·.date)) := by
  intro fuel
  induction fuel with
  | zero => intro c n; simp [genLoop, StepChain]
  | succ fuel ih =>
    intro c n
    rw [genLoop_weekly_plain_step base startDate endDate maxOcc yearBound wfuel
      hp hwd]
    split
    · simp [StepChain]
    · split
      · simp [StepChain, occurrenceOf_date]
      · simp only [List.map_cons, occurrenceOf_date]
        exact ⟨rfl, ih (c + 7) (n + 1)⟩

/-- Every candidate accepted in a weekday pass lies strictly after the
template date (`if (sessionDate <= startDate) continue`). -/
theorem weekdayPass_dates_gt (base : InsertTrainingSession) (startDate : Nat)
    (endDate : Option Nat) (maxOcc yearBound currentWeek : Nat) :
    ∀ (ws : List Nat) (count nextId : Nat) (s : TrainingSession),
      s ∈ (weekdayPass base startDate endDate maxOcc yearBound currentWeek
        ws count nextId).out →
      startDate < s.date := by
  intro ws
  induction ws with
  | nil =>
    intro count nextId s hs
    simp [weekdayPass] at hs
  | cons wd rest ih =>
    intro count nextId s hs
    simp only [weekdayPass] at hs
    split at hs
    · simp at hs
    · split at hs
      · exact ih _ _ _ hs
      · rename_i hskip
        split at hs
        · simp at hs
        · split at hs
          · simp at hs
            subst hs
            simp only [occurrenceWd_date]
            omega
          · rcases List.mem_cons.mp hs with h | h
            · subst h
              simp only [occurrenceWd_date]
              omega
            · exact ih _ _ _ h

/-- Week-loop version of `weekdayPass_dates_gt`. -/
theorem weeklyLoop_dates_gt (base : InsertTrainingSession) (startDate : Nat)
    (endDate : Option Nat) (maxOcc yearBound : Nat) (weekdays : List Nat) :
    ∀ (wfuel currentWeek count nextId : Nat) (s : TrainingSession),
      s ∈ weeklyLoop base startDate endDate maxOcc yearBound weekdays wfuel
        currentWeek count nextId →
      startDate < s.date := by
  intro wfuel
  induction wfuel with
  | zero =>
    intro currentWeek count nextId s hs
    simp [weeklyLoop] at hs
  | succ wfuel ih =>
    intro currentWeek count nextId s hs
    simp only [weeklyLoop] at hs
    split at hs
    · split at hs
      · exact weekdayPass_dates_gt base startDate endDate maxOcc yearBound
          currentWeek weekdays count nextId s hs
      · rcases List.mem_append.mp hs with h | h
        · exact weekdayPass_dates_gt base startDate endDate maxOcc yearBound
            currentWeek weekdays count nextId s h
        · exact ih _ _ _ s h
    · simp at hs

/-- Every occurrence of the weekly-by-weekdays walk lies strictly after the
template date. -/
theorem gwbw_dates_gt (base : InsertTrainingSession) (startDate : Nat)
    (endDate : Option Nat) (maxOcc yearBound wfuel nextId : Nat)
    (s : TrainingSession)
    (hs : s ∈ generateWeeklyByWeekdays base startDate endDate maxOcc yearBound
      wfuel nextId) :
    startDate < s.date := by
  unfold generateWeeklyByWeekdays at hs
  split at hs
  · simp at hs
  · split at hs
    · simp at hs
    · exact weeklyLoop_dates_gt base startDate endDate maxOcc yearBound _
        wfuel _ 0 nextId s hs

/-- C10: there is no distinct `weekly_by_weekdays` pattern value at the
interface (such a pattern string hits the default arm and yields nothing); a
`weekly` template with a non-empty `weekdays` array is expanded by the
week-by-week per-weekday walk `generateWeeklyByWeekdays` — which starts from
the Sunday of the template date's week and skips candidates on or before the
template date, so every occurrence postdates the template — while `weekly`
with no weekdays steps by +7 days from occurrence to occurrence. -/
theorem weekly_weekdays_dispatch (base : InsertTrainingSession)
    (yearBound wfuel startId : Nat)
    (hp : base.recurringPattern = some "weekly") :
    (weekdaysNonempty base.weekdays = true →
      generateRecurringSessions base yearBound wfuel startId =
        generateWeeklyByWeekdays base base.date base.recurringEndDate
          (effectiveMax base.maxOccurrences) yearBound wfuel startId) ∧
    (weekdaysNonempty base.weekdays = true →
      ∀ s ∈ generateRecurringSessions base yearBound wfuel startId,
        base.date < s.date) ∧
    (weekdaysNonempty base.weekdays = false →
      StepChain (· + 7) base.date
        ((generateRecurringSessions base yearBound wfuel startId).map (·.date))) ∧
    (∀ (base2 : InsertTrainingSession) (yb2 wf2 si2 : Nat),
      base2.recurringPattern = some "weekly_by_weekdays" →
      generateRecurringSessions base2 yb2 wf2 si2 = []) := by
  have htr : patternTruthy base.recurringPattern = true := by
    rw [hp]
    simp [patternTruthy]
  have hdeleg : weekdaysNonempty base.weekdays = true →
      generateRecurringSessions base yearBound wfuel startId =
        generateWeeklyByWeekdays base base.date base.recurringEndDate
          (effectiveMax base.maxOccurrences) yearBound wfuel startId := by
    intro hwd
    unfold generateRecurringSessions
    rw [htr]
    simp only [if_true]
    obtain ⟨k, hk⟩ : ∃ k, effectiveMax base.maxOccurrences = k + 1 := by
      have := effectiveMax_pos base.maxOccurrences
      exact ⟨effectiveMax base.maxOccurrences - 1, by omega⟩
    rw [hk]
    exact genLoop_weekly_delegate base base.date base.recurringEndDate _
      yearBound wfuel hp hwd k base.date startId
  refine ⟨hdeleg, ?_, ?_, ?_⟩
  · intro hwd s hs
    rw [hdeleg hwd] at hs
    exact gwbw_dates_gt base base.date base.recurringEndDate _ yearBound wfuel
      startId s hs
  · intro hwd
    unfold generateRecurringSessions
    rw [htr]
    simp only [if_true]
    exact genLoop_weekly_chain base base.date base.recurringEndDate _
      yearBound wfuel hp hwd _ _ _
  · intro base2 yb2 wf2 si2 hp2
    unfold generateRecurringSessions
    split
    · exact genLoop_unrecognized base2 base2.date base2.recurringEndDate _
        yb2 wf2 "weekly_by_weekdays" hp2 (by decide) (by decide) (by decide)
        (by decide) _ _ _
    · rfl

/-- Witness for C10 at a weekly template requesting Mondays and Wednesdays:
the expansion is exactly the weekly-by-weekdays walk. -/
theorem weekly_weekdays_dispatch_witness :
    generateRecurringSessions weeklyWdTemplate 99999 60 1 =
      generateWeeklyByWeekdays weeklyWdTemplate weeklyWdTemplate.date
        weeklyWdTemplate.recurringEndDate
        (effectiveMax weeklyWdTemplate.maxOccurrences) 99999 60 1 :=
  (weekly_weekdays_dispatch weeklyWdTemplate 99999 60 1 rfl).1 (by decide)

/-- C4, amended: for a monthly template each occurrence's date is the
previous occurrence's date advanced by ECMAScript `setMonth` semantics
(`monthStep`): the first day of the next calendar month plus
(day-of-month − 1) days.  The day-of-month is preserved when the target
month has at least that many days; otherwise the date overflows past the end
of the target month into the following month (e.g. Jan 31 → Mar 3) — it is
not clamped to the last day of the target month. -/
theorem monthly_dates_are_monthStep_iterates (base : InsertTrainingSession)
    (yearBound wfuel startId : Nat)
    (hp : base.recurringPattern = some "monthly") :
    StepChain monthStep base.date
      ((generateRecurringSessions base yearBound wfuel startId).map (·.date)) := by
  unfold generateRecurringSessions
  split
  · exact genLoop_monthly_chain base base.date base.recurringEndDate _
      yearBound wfuel hp _ _ _
  · simp [StepChain]

/-- Witness for C4's amended theorem at the sample template made monthly. -/
theorem monthly_dates_are_monthStep_iterates_witness :
    StepChain monthStep
      ({ sampleTemplate with recurringPattern := some "monthly" } :
        InsertTrainingSession).date
      ((generateRecurringSessions
        { sampleTemplate with recurringPattern := some "monthly" }
        99999 60 1).map (·.date)) :=
  monthly_dates_are_monthStep_iterates
    { sampleTemplate with recurringPattern := some "monthly" } 99999 60 1 rfl

/-- Counterexample for C4 as stated: the monthly template dated 2025-01-31
produces its single occurrence on 2025-03-03 (setMonth overflow), not on the
claimed clamped date 2025-02-28. -/
theorem monthly_clamp_counterexample :
    (generateRecurringSessions cexMonthlyTemplate 99999 60 2).map (·.date) =
      [daysFromCivil 2025 3 3] ∧
    daysFromCivil 2025 3 3 ≠ daysFromCivil 2025 2 28 := by
  decide

/-!  Counting and end-date bounding lemmas (claim C8). -/

/-- A weekday pass emits exactly `count` increments, and never pushes `count`
beyond `maxOccurrences` (nor below its entry value). -/
theorem weekdayPass_count_spec (base : InsertTrainingSession) (startDate : Nat)
    (endDate : Option Nat) (maxOcc yearBound currentWeek : Nat) :
    ∀ (ws : List Nat) (count nextId : Nat),
      (weekdayPass base startDate endDate maxOcc yearBound currentWeek ws
        count nextId).count =
        count + (weekdayPass base startDate endDate maxOcc yearBound
          currentWeek ws count nextId).out.length ∧
      (count ≤ maxOcc →
        (weekdayPass base startDate endDate maxOcc yearBound currentWeek ws
          count nextId).count ≤ maxOcc) := by
  intro ws
  induction ws with
  | nil =>
    intro c n
    simp [weekdayPass]
  | cons wd rest ih =>
    intro c n
    simp only [weekdayPass]
    split
    · exact ⟨by simp, fun h => h⟩
    · split
      · exact ih c n
      · split
        · exact ⟨by simp, fun h => h⟩
        · split
          · refine ⟨by simp, fun h => ?_⟩
            show c + 1 ≤ maxOcc
            omega
          · obtain ⟨h1, h2⟩ := ih (c + 1) (n + 1)
            refine ⟨?_, fun h => ?_⟩
            · simp only [List.length_cons]
              omega
            · exact h2 (by omega)

/-- The week-by-week loop emits at most `maxOccurrences - count` sessions. -/
theorem weeklyLoop_length (base : InsertTrainingSession) (startDate : Nat)
    (endDate : Option Nat) (maxOcc yearBound : Nat) (weekdays : List Nat) :
    ∀ (wfuel currentWeek count nextId : Nat),
      (weeklyLoop base startDate endDate maxOcc yearBound weekdays wfuel
        currentWeek count nextId).length ≤ maxOcc - count := by
  intro wfuel
  induction wfuel with
  | zero =>
    intro currentWeek count nextId
    simp [weeklyLoop]
  | succ wfuel ih =>
    intro currentWeek count nextId
    simp only [weeklyLoop]
    split
    · obtain ⟨h1, h2⟩ := weekdayPass_count_spec base startDate endDate maxOcc
        yearBound currentWeek weekdays count nextId
      split
      · omega
      · have h3 := ih (currentWeek + 7)
          (weekdayPass base startDate endDate maxOcc yearBound currentWeek
            weekdays count nextId).count
          (weekdayPass base startDate endDate maxOcc yearBound currentWeek
            weekdays count nextId).nextId
        have h4 := h2 (by omega)
        simp only [List.length_append]
        omega
    · simp

/-- The weekly-by-weekdays walk emits at most `maxOccurrences` sessions. -/
theorem gwbw_length (base : InsertTrainingSession) (startDate : Nat)
    (endDate : Option Nat) (maxOcc yearBound wfuel nextId : Nat) :
    (generateWeeklyByWeekdays base startDate endDate maxOcc yearBound wfuel
      nextId).length ≤ maxOcc := by
  unfold generateWeeklyByWeekdays
  split
  · simp
  · rename_i ws heq
    split
    · simp
    · have := weeklyLoop_length base startDate endDate maxOcc yearBound ws
        wfuel (sundayOfWeek startDate) 0 nextId
      omega

/-- When the loop does not delegate to the weekday walk, it emits at most one
session per unit of remaining budget. -/
theorem genLoop_length_nodelegate (base : InsertTrainingSession)
    (startDate : Nat) (endDate : Option Nat) (maxOcc yearBound wfuel : Nat)
    (hnd : ¬(base.recurringPattern = some "weekly" ∧
      weekdaysNonempty base.weekdays = true)) :
    ∀ (fuel currentDate nextId : Nat),
      (genLoop base startDate endDate maxOcc yearBound wfuel fuel currentDate
        nextId).length ≤ fuel := by
  intro fuel
  induction fuel with
  | zero =>
    intro c n
    simp [genLoop]
  | succ fuel ih =>
    intro c n
    have hcont : ∀ next : Nat,
        (if pastEnd endDate next = true then ([] : List TrainingSession)
         else if next > yearBound then [occurrenceOf base n next]
         else occurrenceOf base n next ::
           genLoop base startDate endDate maxOcc yearBound wfuel fuel next
             (n + 1)).length ≤ fuel + 1 := by
      intro next
      split
      · simp
      · split
        · simp
        · have := ih next (n + 1)
          simp only [List.length_cons]
          omega
    simp only [genLoop]
    split
    · exact hcont _
    · split
      · split
        · rename_i hpw hwd
          exact absurd ⟨hpw, hwd⟩ hnd
        · exact hcont _
      · split
        · exact hcont _
        · split
          · exact hcont _
          · simp

/-- With an explicit end date, every session a weekday pass emits is dated on
or before it. -/
theorem weekdayPass_dates_le (base : InsertTrainingSession) (startDate : Nat)
    (e : Nat) (maxOcc yearBound currentWeek : Nat) :
    ∀ (ws : List Nat) (count nextId : Nat) (s : TrainingSession),
      s ∈ (weekdayPass base startDate (some e) maxOcc yearBound currentWeek
        ws count nextId).out →
      s.date ≤ e := by
  intro ws
  induction ws with
  | nil =>
    intro count nextId s hs
    simp [weekdayPass] at hs
  | cons wd rest ih =>
    intro count nextId s hs
    simp only [weekdayPass] at hs
    split at hs
    · simp at hs
    · split at hs
      · exact ih _ _ _ hs
      · split at hs
        · simp at hs
        · rename_i hend
          simp only [pastEnd, decide_eq_true_eq] at hend
          split at hs
          · simp at hs
            subst hs
            simp only [occurrenceWd_date]
            omega
          · rcases List.mem_cons.mp hs with h | h
            · subst h
              simp only [occurrenceWd_date]
              omega
            · exact ih _ _ _ h

/-- Week-loop version of `weekdayPass_dates_le`. -/
theorem weeklyLoop_dates_le (base : InsertTrainingSession) (startDate : Nat)
    (e : Nat) (maxOcc yearBound : Nat) (weekdays : List Nat) :
    ∀ (wfuel currentWeek count nextId : Nat) (s : TrainingSession),
      s ∈ weeklyLoop base startDate (some e) maxOcc yearBound weekdays wfuel
        currentWeek count nextId →
      s.date ≤ e := by
  intro wfuel
  induction wfuel with
  | zero =>
    intro currentWeek count nextId s hs
    simp [weeklyLoop] at hs
  | succ wfuel ih =>
    intro currentWeek count nextId s hs
    simp only [weeklyLoop] at hs
    split at hs
    · split at hs
      · exact weekdayPass_dates_le base startDate e maxOcc yearBound
          currentWeek weekdays count nextId s hs
      · rcases List.mem_append.mp hs with h | h
        · exact weekdayPass_dates_le base startDate e maxOcc yearBound
            currentWeek weekdays count nextId s h
        · exact ih _ _ _ s h
    · simp at hs

/-- Weekly-by-weekdays version of `weekdayPass_dates_le`. -/
theorem gwbw_dates_le (base : InsertTrainingSession) (startDate : Nat)
    (e : Nat) (maxOcc yearBound wfuel nextId : Nat) (s : TrainingSession)
    (hs : s ∈ generateWeeklyByWeekdays base startDate (some e) maxOcc
      yearBound wfuel nextId) :
    s.date ≤ e := by
  unfold generateWeeklyByWeekdays at hs
  split at hs
  · simp at hs
  · split at hs
    · simp at hs
    · exact weeklyLoop_dates_le base startDate e maxOcc yearBound _ wfuel _ 0
        nextId s hs

/-- With an explicit end date, every session the main loop emits is dated on
or before it. -/
theorem genLoop_dates_le (base : InsertTrainingSession) (startDate : Nat)
    (e : Nat) (maxOcc yearBound wfuel : Nat) :
    ∀ (fuel currentDate nextId : Nat) (s : TrainingSession),
      s ∈ genLoop base startDate (some e) maxOcc yearBound wfuel fuel
        currentDate nextId →
      s.date ≤ e := by
  intro fuel
  induction fuel with
  | zero =>
    intro c n s hs
    simp [genLoop] at hs
  | succ fuel ih =>
    intro c n s hs
    have hcont : ∀ next : Nat,
        s ∈ (if pastEnd (some e) next = true then ([] : List TrainingSession)
          else if next > yearBound then [occurrenceOf base n next]
          else occurrenceOf base n next ::
            genLoop base startDate (some e) maxOcc yearBound wfuel fuel next
              (n + 1)) →
        s.date ≤ e := by
      intro next hmem
      split at hmem
      · simp at hmem
      · rename_i hend
        simp only [pastEnd, decide_eq_true_eq] at hend
        split at hmem
        · simp at hmem
          subst hmem
          simp only [occurrenceOf_date]
          omega
        · rcases List.mem_cons.mp hmem with h | h
          · subst h
            simp only [occurrenceOf_date]
            omega
          · exact ih _ _ s h
    simp only [genLoop] at hs
    split at hs
    · exact hcont _ hs
    · split at hs
      · split at hs
        · exact gwbw_dates_le base startDate e maxOcc yearBound wfuel n s hs
        · exact hcont _ hs
      · split at hs
        · exact hcont _ hs
        · split at hs
          · exact hcont _ hs
          · simp at hs

/-- C8, amended: the expander returns at most `effectiveMax maxOccurrences`
records, where a missing — or zero, since `0` is JS-falsy in
`maxOccurrences || 50` — cap is replaced by the default 50; hence for any
given `maxOccurrences ≥ 1` it returns at most that many records, and when
`recurringEndDate` is given no returned occurrence is dated after it. -/
theorem expander_bounds (base : InsertTrainingSession)
    (yearBound wfuel startId : Nat) :
    (generateRecurringSessions base yearBound wfuel startId).length ≤
      effectiveMax base.maxOccurrences ∧
    (∀ k, base.maxOccurrences = some k → 1 ≤ k →
      (generateRecurringSessions base yearBound wfuel startId).length ≤ k) ∧
    (∀ e, base.recurringEndDate = some e →
      ∀ s ∈ generateRecurringSessions base yearBound wfuel startId,
        s.date ≤ e) := by
  have hlen : (generateRecurringSessions base yearBound wfuel startId).length ≤
      effectiveMax base.maxOccurrences := by
    unfold generateRecurringSessions
    split
    · by_cases hd : base.recurringPattern = some "weekly" ∧
        weekdaysNonempty base.weekdays = true
      · obtain ⟨k, hk⟩ : ∃ k, effectiveMax base.maxOccurrences = k + 1 := by
          have := effectiveMax_pos base.maxOccurrences
          exact ⟨effectiveMax base.maxOccurrences - 1, by omega⟩
        rw [hk, genLoop_weekly_delegate base base.date base.recurringEndDate
          (k + 1) yearBound wfuel hd.1 hd.2 k base.date startId]
        exact gwbw_length base base.date base.recurringEndDate (k + 1)
          yearBound wfuel startId
      · exact genLoop_length_nodelegate base base.date base.recurringEndDate
          (effectiveMax base.maxOccurrences) yearBound wfuel hd _ _ _
    · simp
  refine ⟨hlen, fun k hk hk1 => ?_, fun e he s hs => ?_⟩
  · have hek : effectiveMax base.maxOccurrences = k := by
      rw [hk]
      simp only [effectiveMax]
      rw [if_neg (by omega)]
    omega
  · unfold generateRecurringSessions at hs
    rw [he] at hs
    split at hs
    · by_cases hd : base.recurringPattern = some "weekly" ∧
        weekdaysNonempty base.weekdays = true
      · obtain ⟨k, hk⟩ : ∃ k, effectiveMax base.maxOccurrences = k + 1 := by
          have := effectiveMax_pos base.maxOccurrences
          exact ⟨effectiveMax base.maxOccurrences - 1, by omega⟩
        rw [hk, genLoop_weekly_delegate base base.date (some e)
          (k + 1) yearBound wfuel hd.1 hd.2 k base.date startId] at hs
        exact gwbw_dates_le base base.date e (k + 1) yearBound wfuel startId
          s hs
      · exact genLoop_dates_le base base.date e
          (effectiveMax base.maxOccurrences) yearBound wfuel _ _ _ s hs
    · simp at hs

/-- Witness for C8's theorem: the sample daily template with an explicit end
date 2025-06-04 stays within both the cap and the end date (shown at its
first occurrence, 2025-06-03), and the overall length bound holds. -/
theorem expander_bounds_witness :
    (generateRecurringSessions
      { sampleTemplate with recurringEndDate := some (daysFromCivil 2025 6 4) }
      99999 60 1).length ≤
      effectiveMax ({ sampleTemplate with
        recurringEndDate := some (daysFromCivil 2025 6 4) } :
          InsertTrainingSession).maxOccurrences ∧
    (generateRecurringSessions
      { sampleTemplate with recurringEndDate := some (daysFromCivil 2025 6 4) }
      99999 60 1).length ≤ 3 ∧
    (occurrenceOf
      { sampleTemplate with recurringEndDate := some (daysFromCivil 2025 6 4) }
      1 (daysFromCivil 2025 6 3)).date ≤ daysFromCivil 2025 6 4 :=
  ⟨(expander_bounds
      { sampleTemplate with recurringEndDate := some (daysFromCivil 2025 6 4) }
      99999 60 1).1,
   (expander_bounds
      { sampleTemplate with recurringEndDate := some (daysFromCivil 2025 6 4) }
      99999 60 1).2.1 3 rfl (by omega),
   (expander_bounds
      { sampleTemplate with recurringEndDate := some (daysFromCivil 2025 6 4) }
      99999 60 1).2.2 (daysFromCivil 2025 6 4) rfl _ (by decide)⟩

/-- Counterexample for C8 as stated: a template with `maxOccurrences = 0`
produces 50 occurrences, because `0` is falsy in `maxOccurrences || 50` —
not at most `maxOccurrences = 0` of them. -/
theorem expander_bounds_counterexample :
    (generateRecurringSessions cexZeroMaxTemplate 99999 60 1).length = 50 ∧
    ¬ ((generateRecurringSessions cexZeroMaxTemplate 99999 60 1).length ≤ 0) := by
  constructor
  · rfl
  · intro h
    simp only [show (generateRecurringSessions cexZeroMaxTemplate
      99999 60 1).length = 50 from rfl] at h
    omega

/-!  Rotation-loop closed form (claims C3, C5, C7). -/

/-- Retrieving an element of a mapped range. -/
theorem get?_map_range {α : Type} (f : Nat → α) (K j : Nat) (w : α)
    (h : ((List.range K).map f).get? j = some w) : j < K ∧ w = f j := by
  have hlt : j < K := by
    by_contra hge
    have : ((List.range K).map f).get? j = none := by
      rw [List.get?_eq_none]
      simp only [List.length_map, List.length_range]
      omega
    rw [this] at h
    exact Option.noConfusion h
  refine ⟨hlt, ?_⟩
  rw [List.get?_eq_getElem?, List.getElem?_map, List.getElem?_range hlt] at h
  simpa using h.symm

/-- The rotation loop appends exactly the `rotSteps` many 3-day windows
described by `rotWindow`, leaving the pre-existing schedules untouched. -/
theorem rotationLoop_schedules (ids : List Nat) (E : Nat) :
    ∀ (fuel idx c : Nat) (st : LeaderState),
      (rotationLoop ids E fuel idx c st).schedules =
        st.schedules ++ (List.range (rotSteps E fuel c)).map
          (rotWindow ids st.nextId idx c) := by
  intro fuel
  induction fuel with
  | zero =>
    intro idx c st
    simp [rotationLoop, rotSteps]
  | succ fuel ih =>
    intro idx c st
    simp only [rotationLoop, rotSteps]
    split
    · rw [ih]
      simp only [createLeaderSchedule]
      rw [List.range_succ_eq_map, List.map_cons, List.map_map,
        List.append_assoc, List.singleton_append]
      have h0 : (⟨st.nextId, ids.getD (idx % ids.length) 0, c, c + 2, true⟩ :
          LeaderSchedule) = rotWindow ids st.nextId idx c 0 := by
        simp [rotWindow]
      have hfun : rotWindow ids (st.nextId + 1) ((idx + 1) % ids.length)
          (c + 3) = (rotWindow ids st.nextId idx c ∘ Nat.succ) := by
        funext j
        simp only [rotWindow, Function.comp_apply, LeaderSchedule.mk.injEq]
        refine ⟨by omega, ?_, by omega, by omega, trivial⟩
        have harg : ((idx + 1) % ids.length + j) % ids.length =
            (idx + Nat.succ j) % ids.length := by
          rw [Nat.mod_add_mod]
          congr 1
          omega
        rw [harg]
      rw [h0, hfun]
    · simp

/-- One fuel unit and a day strictly below the bound guarantee at least one
iteration. -/
theorem rotSteps_pos (E fuel c : Nat) (hf : 1 ≤ fuel) (hc : c < E) :
    1 ≤ rotSteps E fuel c := by
  cases fuel with
  | zero => omega
  | succ fuel =>
    simp only [rotSteps]
    rw [if_pos hc]
    omega

/-- Deactivation changes no id and no count. -/
theorem deactivateAll_basic (st : LeaderState) :
    (deactivateAll st).schedules.length = st.schedules.length ∧
    (deactivateAll st).nextId = st.nextId := by
  simp [deactivateAll]

/-- C3, amended: `generateLeaderSchedule` (with a non-empty roster) marks as
inactive ALL currently-active assignments — regardless of their start dates,
including those starting strictly before the new start date — and deletes
nothing: the prior records survive in place (deactivated) and new records
are only appended. -/
theorem generate_deactivates_all (d : Nat) (sws : List Swimmer)
    (st : LeaderState) (h : sws ≠ []) :
    (generateLeaderSchedule d sws st).schedules.take st.schedules.length =
      st.schedules.map
        (fun s => if s.isActive then { s with isActive := false } else s) ∧
    st.schedules.length ≤ (generateLeaderSchedule d sws st).schedules.length := by
  unfold generateLeaderSchedule
  rw [if_neg (by simpa using h)]
  rw [rotationLoop_schedules]
  obtain ⟨hlen, _⟩ := deactivateAll_basic st
  constructor
  · rw [← hlen, List.take_left]
    simp [deactivateAll]
  · simp only [List.length_append, hlen]
    omega

/-- Witness for C3 at the concrete store holding one old active assignment
(started 2024-10-04) and the seeded one-swimmer roster. -/
theorem generate_deactivates_all_witness :
    (generateLeaderSchedule 20241 sampleSwimmers
        cexOldActiveState).schedules.take
        cexOldActiveState.schedules.length =
      cexOldActiveState.schedules.map
        (fun s => if s.isActive then { s with isActive := false } else s) ∧
    cexOldActiveState.schedules.length ≤
      (generateLeaderSchedule 20241 sampleSwimmers
        cexOldActiveState).schedules.length :=
  generate_deactivates_all 20241 sampleSwimmers cexOldActiveState (by decide)

set_option maxRecDepth 40000 in
/-- Counterexample for C3 as stated: the active assignment starting at day
20000 — strictly before the new start date 20241 — does NOT keep
`isActive = true`: after `generateLeaderSchedule` it is inactive. -/
theorem generate_deactivates_all_counterexample :
    (20000 : Nat) < 20241 ∧
    ((cexOldActiveState.schedules.head?.map (fun s => s.isActive)) =
      some true) ∧
    (((generateLeaderSchedule 20241 sampleSwimmers
        cexOldActiveState).schedules.head?.map (fun s => s.isActive)) =
      some false) := by
  refine ⟨by omega, by decide, ?_⟩
  decide

/-- C6: generating with an empty roster answers an error to the caller (the
route's 400 response) and commits nothing: the storage operation itself is a
pure no-op on the schedule store. -/
theorem empty_roster_generate_noop (d : Nat) (st : LeaderState) :
    postLeadersGenerate d [] st =
      (Except.error "No swimmers found. Cannot generate leader schedule.",
        st) ∧
    generateLeaderSchedule d [] st = st :=
  ⟨rfl, rfl⟩

/-- C5, amended: for a non-empty roster, `generateLeaderSchedule` appends
windows that are contiguous 3-day blocks — the j-th appended window is
`[startDate + 3j, startDate + 3j + 2]`, so each window's start equals the
previous window's end plus one day and there are no gaps or overlaps among
the generated windows — rotating through the roster from index 0.  Every
window, the final one included, spans exactly 3 days: nothing is ever
truncated at the one-year bound, and depending on the year's length the last
window may run past (or stop short of) it. -/
theorem rotation_windows_contiguous (d : Nat) (sws : List Swimmer)
    (st : LeaderState) (h : sws ≠ []) :
    (∀ (j : Nat) (w : LeaderSchedule),
      ((generateLeaderSchedule d sws st).schedules.drop
        st.schedules.length).get? j = some w →
      w.startDate = d + 3 * j ∧ w.endDate = w.startDate + 2 ∧
      w.swimmerId = (sws.map (fun x => x.id)).getD (j % sws.length) 0) ∧
    (∀ (j : Nat) (w w2 : LeaderSchedule),
      ((generateLeaderSchedule d sws st).schedules.drop
        st.schedules.length).get? j = some w →
      ((generateLeaderSchedule d sws st).schedules.drop
        st.schedules.length).get? (j + 1) = some w2 →
      w2.startDate = w.endDate + 1) ∧
    (d < yearStep d →
      ∃ w, ((generateLeaderSchedule d sws st).schedules.drop
        st.schedules.length).get? 0 = some w ∧ w.startDate = d) := by
  have hrw : (generateLeaderSchedule d sws st).schedules.drop
      st.schedules.length =
      (List.range (rotSteps (yearStep d) (yearStep d - d) d)).map
        (rotWindow (sws.map (fun x => x.id)) st.nextId 0 d) := by
    unfold generateLeaderSchedule
    rw [if_neg (by simpa using h), rotationLoop_schedules]
    obtain ⟨hlen, hnid⟩ := deactivateAll_basic st
    rw [hnid, ← hlen, List.drop_left]
  have hfields : ∀ (j : Nat) (w : LeaderSchedule),
      ((generateLeaderSchedule d sws st).schedules.drop
        st.schedules.length).get? j = some w →
      w.startDate = d + 3 * j ∧ w.endDate = w.startDate + 2 ∧
      w.swimmerId = (sws.map (fun x => x.id)).getD (j % sws.length) 0 := by
    intro j w hw
    rw [hrw] at hw
    obtain ⟨hj, hwE⟩ := get?_map_range _ _ _ _ hw
    subst hwE
    refine ⟨rfl, rfl, ?_⟩
    simp [rotWindow, List.length_map]
  refine ⟨hfields, ?_, ?_⟩
  · intro j w w2 hw hw2
    obtain ⟨h1, h2, _⟩ := hfields j w hw
    obtain ⟨h3, _, _⟩ := hfields (j + 1) w2 hw2
    omega
  · intro hlt
    have hpos : 1 ≤ rotSteps (yearStep d) (yearStep d - d) d :=
      rotSteps_pos _ _ _ (by omega) hlt
    refine ⟨rotWindow (sws.map (fun x => x.id)) st.nextId 0 d 0, ?_, rfl⟩
    rw [hrw, List.get?_eq_getElem?, List.getElem?_map,
      List.getElem?_range (by omega)]
    rfl

/-- Witness for C5's theorem: with one swimmer and the empty store, the first
generated window starts on the requested day 20241 (2025-06-02). -/
theorem rotation_windows_contiguous_witness :
    ∃ w, ((generateLeaderSchedule 20241 sampleSwimmers
      emptyLeaderState).schedules.drop
        emptyLeaderState.schedules.length).get? 0 = some w ∧
      w.startDate = 20241 :=
  (rotation_windows_contiguous 20241 sampleSwimmers emptyLeaderState
    (by decide)).2.2 (by decide)

set_option maxRecDepth 40000 in
/-- Counterexample for C5 as stated: windows are never truncated.  Starting
2025-06-02 (day 20241; the following year spans 365 days) the final window is
the full 3-day block `[20604, 20606]` ending exactly at `startDate + 1 year`
(2026-06-02) — one day past 20605 (2026-06-01), the last day of the one-year
horizon, instead of being truncated to it; and starting 2024-02-01 (day
19754; leap span of 366 days) the windows stop at 20119, leaving the
horizon's boundary day 20120 (2025-02-01) uncovered.  Under either reading
of `horizonEnd` one of the two runs violates exact tiling with truncation. -/
theorem rotation_truncation_counterexample :
    yearStep 20241 = 20606 ∧
    ((generateLeaderSchedule 20241 sampleSwimmers
      emptyLeaderState).schedules.getLast?.map
        (fun w => (w.startDate, w.endDate))) = some (20604, 20606) ∧
    yearStep 19754 = 20120 ∧
    ((generateLeaderSchedule 19754 sampleSwimmers
      emptyLeaderState).schedules.getLast?.map
        (fun w => (w.startDate, w.endDate))) = some (20117, 20119) := by
  refine ⟨by decide, ?_, by decide, ?_⟩
  · decide
  · decide

/-- The scan of `getLeaderForDate` is the hardcoded-list lookup applied to
the first active schedule containing the date, and `none` when there is no
such schedule — or when the lookup itself misses. -/
theorem leaderScan_eq_find (date : Nat) :
    ∀ l : List LeaderSchedule,
      leaderScan date l =
        (l.find? (fun s => s.isActive && decide (s.startDate ≤ date) &&
          decide (date ≤ s.endDate))).bind
          (fun s => (resolveLeaders.find? (fun l2 => l2.id == s.swimmerId)).map
            (fun l2 => l2.name)) := by
  intro l
  induction l with
  | nil => rfl
  | cons s rest ih =>
    by_cases ha : s.isActive
    · by_cases hr : s.startDate ≤ date ∧ date ≤ s.endDate
      · rw [List.find?_cons_of_pos _ (by simp [ha, hr.1, hr.2])]
        simp only [leaderScan, ha, Bool.not_true, Bool.false_eq_true,
          if_false, if_pos hr, Option.some_bind]
        cases hf : resolveLeaders.find? (fun l2 => l2.id == s.swimmerId) <;>
          simp [hf]
      · rw [List.find?_cons_of_neg _
          (fun hps => hr (by simpa [ha] using hps))]
        simp only [leaderScan, ha, Bool.not_true, Bool.false_eq_true,
          if_false, if_neg hr]
        exact ih
    · rw [List.find?_cons_of_neg _ (by simp [ha])]
      simp only [leaderScan, ha, Bool.not_false, if_true]
      exact ih

/-- C2, amended: `getLeaderForDate` returns the name — looked up in the
hardcoded 16-entry default leader list — of the first active assignment in
storage order whose `[startDate, endDate]` contains the date; it returns
null either when no active assignment's interval contains the date, or when
the first matching assignment's `swimmerId` is absent from that hardcoded
list (the scan stops rather than trying further matches). -/
theorem resolve_first_active_match (date : Nat) (st : LeaderState) :
    getLeaderForDate date st =
      (st.schedules.find? (fun s => s.isActive && decide (s.startDate ≤ date) &&
        decide (date ≤ s.endDate))).bind
        (fun s => (resolveLeaders.find? (fun l2 => l2.id == s.swimmerId)).map
          (fun l2 => l2.name)) :=
  leaderScan_eq_find date st.schedules

/-- Counterexample for C2 as stated: an active assignment for swimmer id 5
(the id `setLeaderForDate`'s fallback list stores for the fifth leader)
covers day 20242, yet `getLeaderForDate` returns null, because id 5 is not
in its hardcoded lookup list (which uses millisecond-timestamp ids from the
fifth entry on). -/
theorem resolve_null_despite_active_counterexample :
    getLeaderForDate 20242 cexUnresolvableState = none ∧
    (cexUnresolvableState.schedules.any (fun s => s.isActive &&
      decide (s.startDate ≤ 20242) && decide (20242 ≤ s.endDate))) = true := by
  constructor
  · decide
  · decide

/-- C7: `setLeaderForDate(date, X)` — when `X` occurs in the provided (or
fallback) leader list — first deactivates ALL currently active assignments
regardless of their dates (the prior records are kept, deactivated, in
place), then generates forward from `date`: the j-th new window is
`[date + 3j, date + 3j + 2]` and is assigned to the leader at position
`(startIndex + j) mod n` of the list sorted by `order` ascending, where
`startIndex` is X's position in that sorted list — so the first window
starts at `date` with member `X` and subsequent windows follow the roster's
cyclic order from X's position. -/
theorem set_from_date_pivot (date leaderId : Nat)
    (leaders : Option (List RosterMember)) (st : LeaderState)
    (lx : RosterMember)
    (hfind : (leaders.getD fallbackLeaders).find?
      (fun l => l.id == leaderId) = some lx)
    (hlt : date < yearStep date) :
    ∃ st2, setLeaderForDate date leaderId leaders st = Except.ok st2 ∧
      st2.schedules.take st.schedules.length =
        st.schedules.map
          (fun s => if s.isActive then { s with isActive := false } else s) ∧
      (∀ (j : Nat) (w : LeaderSchedule),
        (st2.schedules.drop st.schedules.length).get? j = some w →
        w.startDate = date + 3 * j ∧ w.endDate = w.startDate + 2 ∧
        w.swimmerId =
          (((leaders.getD fallbackLeaders).mergeSort
            (fun a b => a.order ≤ b.order)).map (fun l => l.id)).getD
            ((((leaders.getD fallbackLeaders).mergeSort
              (fun a b => a.order ≤ b.order)).findIdx
              (fun l => l.id == leaderId) + j) %
              (((leaders.getD fallbackLeaders).mergeSort
                (fun a b => a.order ≤ b.order)).map (fun l => l.id)).length)
            0) ∧
      (∃ w0, (st2.schedules.drop st.schedules.length).get? 0 = some w0 ∧
        w0.startDate = date ∧ w0.swimmerId = leaderId) := by
  have hres : setLeaderForDate date leaderId leaders st =
      Except.ok (rotationLoop
        (((leaders.getD fallbackLeaders).mergeSort
          (fun a b => a.order ≤ b.order)).map (fun l => l.id))
        (yearStep date) (yearStep date - date)
        (((leaders.getD fallbackLeaders).mergeSort
          (fun a b => a.order ≤ b.order)).findIdx
          (fun l => l.id == leaderId))
        date (deactivateAll st)) := by
    simp only [setLeaderForDate]
    rw [hfind]
  obtain ⟨hlen, hnid⟩ := deactivateAll_basic st
  have hrw : (rotationLoop
      (((leaders.getD fallbackLeaders).mergeSort
        (fun a b => a.order ≤ b.order)).map (fun l => l.id))
      (yearStep date) (yearStep date - date)
      (((leaders.getD fallbackLeaders).mergeSort
        (fun a b => a.order ≤ b.order)).findIdx
        (fun l => l.id == leaderId))
      date (deactivateAll st)).schedules.drop st.schedules.length =
      (List.range (rotSteps (yearStep date) (yearStep date - date) date)).map
        (rotWindow
          (((leaders.getD fallbackLeaders).mergeSort
            (fun a b => a.order ≤ b.order)).map (fun l => l.id))
          st.nextId
          (((leaders.getD fallbackLeaders).mergeSort
            (fun a b => a.order ≤ b.order)).findIdx
            (fun l => l.id == leaderId))
          date) := by
    rw [rotationLoop_schedules, hnid, ← hlen, List.drop_left]
  have hmem : lx ∈ (leaders.getD fallbackLeaders).mergeSort
      (fun a b => a.order ≤ b.order) :=
    (List.mergeSort_perm (leaders.getD fallbackLeaders)
      (fun a b => a.order ≤ b.order)).mem_iff.mpr
      (List.mem_of_find?_eq_some hfind)
  have hplx : lx.id = leaderId := by
    have := List.find?_some hfind
    simpa using this
  have hex : ∃ x ∈ (leaders.getD fallbackLeaders).mergeSort
      (fun a b => a.order ≤ b.order), (x.id == leaderId) = true :=
    ⟨lx, hmem, by simpa using hplx⟩
  have hi0lt : ((leaders.getD fallbackLeaders).mergeSort
      (fun a b => a.order ≤ b.order)).findIdx
      (fun l => l.id == leaderId) <
      ((leaders.getD fallbackLeaders).mergeSort
        (fun a b => a.order ≤ b.order)).length :=
    List.findIdx_lt_length_of_exists hex
  have hgetD : (((leaders.getD fallbackLeaders).mergeSort
      (fun a b => a.order ≤ b.order)).map (fun l => l.id)).getD
      ((((leaders.getD fallbackLeaders).mergeSort
        (fun a b => a.order ≤ b.order)).findIdx
        (fun l => l.id == leaderId)) %
        (((leaders.getD fallbackLeaders).mergeSort
          (fun a b => a.order ≤ b.order)).map (fun l => l.id)).length) 0 =
      leaderId := by
    rw [List.length_map, Nat.mod_eq_of_lt hi0lt]
    rw [List.getD_eq_getElem?_getD, List.getElem?_map,
      List.getElem?_eq_getElem hi0lt]
    have hp := @List.findIdx_getElem _ (fun l => l.id == leaderId)
      ((leaders.getD fallbackLeaders).mergeSort
        (fun a b => a.order ≤ b.order)) hi0lt
    simpa using hp
  refine ⟨_, hres, ?_, ?_, ?_⟩
  · rw [rotationLoop_schedules, ← hlen, List.take_left]
    simp [deactivateAll]
  · intro j w hw
    rw [hrw] at hw
    obtain ⟨hj, hwE⟩ := get?_map_range _ _ _ _ hw
    subst hwE
    exact ⟨rfl, rfl, rfl⟩
  · have hpos : 1 ≤ rotSteps (yearStep date) (yearStep date - date) date :=
      rotSteps_pos _ _ _ (by omega) hlt
    refine ⟨rotWindow
      (((leaders.getD fallbackLeaders).mergeSort
        (fun a b => a.order ≤ b.order)).map (fun l => l.id))
      st.nextId
      (((leaders.getD fallbackLeaders).mergeSort
        (fun a b => a.order ≤ b.order)).findIdx
        (fun l => l.id == leaderId))
      date 0, ?_, ?_, ?_⟩
    · rw [hrw, List.get?_eq_getElem?, List.getElem?_map,
        List.getElem?_range (by omega)]
      rfl
    · simp [rotWindow]
    · show (((leaders.getD fallbackLeaders).mergeSort
        (fun a b => a.order ≤ b.order)).map (fun l => l.id)).getD _ 0 =
        leaderId
      simpa [rotWindow] using hgetD

/-- Witness for C7: re-anchoring at 2025-06-02 with leader id 2 (有理)
succeeds and the first generated window starts that day with that leader. -/
theorem set_from_date_pivot_witness :
    ∃ st2, setLeaderForDate 20241 2 none cexOldActiveState = Except.ok st2 ∧
      ∃ w0, (st2.schedules.drop cexOldActiveState.schedules.length).get? 0 =
        some w0 ∧ w0.startDate = 20241 ∧ w0.swimmerId = 2 := by
  obtain ⟨st2, h1, h2, h3, h4⟩ := set_from_date_pivot 20241 2 none
    cexOldActiveState ⟨2, "有理", 2⟩ (by decide) (by decide)
  exact ⟨st2, h1, h4⟩
